import Mathlib

/-!
Shallow embedding of the schema/record subsystem of the NoteFlix web app
(src/Schemas/records.js, the schema UI module and the IndexedDB store
module).  The two persisted tables are modelled as Lean lists: the schema
table is keyed by `name` (IndexedDB keyPath `name`), the record table is
keyed by an auto-incrementing integer `id`.  Values collected from the
record form are strings (every non-checkbox widget) or booleans
(checkboxes), so form values are embedded as the sum `Value`.
List order stands in for the store's key order; no property proved here
depends on the order of a table, only on membership and on positionwise
correspondence under the bulk cursor operations (which visit every record
exactly once and keep keys fixed).
-/

namespace NoteFlix

/-- A value held in a record's `data` map: the form collection in
`records.js` stores `el.checked` (a boolean) for checkbox inputs and
`el.value` (a string) for every other widget. -/
inductive Value where
  | str (s : String)
  | bool (b : Bool)
deriving DecidableEq, Repr

/-- JS `String.prototype.trim()`: strips whitespace from both ends.
Implemented structurally over the character list so that it evaluates
inside the kernel (`Char.isWhitespace` covers the space, tab, newline
and carriage-return characters relevant here). -/
def jsTrim (s : String) : String :=
  String.mk (((s.data.dropWhile Char.isWhitespace).reverse.dropWhile
    Char.isWhitespace).reverse)

/-- Helper for `jsSplitComma`: splits a character list at commas. -/
def splitCommaAux : List Char → List Char → List (List Char)
  | [], acc => [acc.reverse]
  | c :: rest, acc =>
    if c = ',' then acc.reverse :: splitCommaAux rest []
    else splitCommaAux rest (c :: acc)

/-- JS `s.split(',')`: the comma-separated pieces of `s`
(`""` splits to `[""]`, like in JS). -/
def jsSplitComma (s : String) : List String :=
  (splitCommaAux s.data []).map String.mk

/-- Parses a non-empty all-digit string as a decimal natural number;
`none` otherwise.  This is JS `ToNumber` restricted to the
decimal-digit strings that the relation picker produces as option
values. -/
def decimalToNat? (s : String) : Option Nat :=
  if !s.data.isEmpty && s.data.all Char.isDigit then
    some (s.data.foldl (fun n c => n * 10 + (c.toNat - '0'.toNat)) 0)
  else none

/-- JS truthiness for the values in scope: a string is truthy iff
non-empty, a boolean is truthy iff `true`. -/
def jsTruthy : Value → Bool
  | .str s => s ≠ ""
  | .bool b => b

/-- String interpolation `${v}` of a value. -/
def vToString : Value → String
  | .str s => s
  | .bool b => if b then "true" else "false"

/-- A property definition embedded in a schema, as produced by the schema
save handler: `{ name, type, options, isMandatory, relatedSchema }`.
`type` is kept as a string because the source dispatches on the string. -/
structure Property where
  name : String
  type : String
  options : List String
  isMandatory : Bool
  relatedSchema : Option String
deriving DecidableEq, Repr

/-- A schema table entry: `{ name, properties }`, keyed by `name`. -/
structure Schema where
  name : String
  properties : List Property
deriving DecidableEq, Repr

/-- A record table entry:
`{ id, schema, data, createdAt, createdTime, createdBy, lastEditedTime,
lastEditedBy }`, keyed by the auto-assigned integer `id`.  The `data`
map is an association list in insertion order (JS object with string
keys); keys are unique because form collection assigns by property
name. -/
structure Record where
  id : Nat
  schema : String
  data : List (String × Value)
  createdAt : Nat
  createdTime : String
  createdBy : String
  lastEditedTime : String
  lastEditedBy : String
deriving DecidableEq, Repr

/-- JS property read `data[k]` on a record's data object. -/
def lookupData (data : List (String × Value)) (k : String) : Option Value :=
  (data.find? (fun kv => kv.1 == k)).map (fun kv => kv.2)

/-- The records object store together with its auto-increment key
generator state. -/
structure RecordTable where
  recs : List Record
  nextId : Nat
deriving DecidableEq, Repr

/-! ### The IndexedDB store wrappers (db.js) -/

/-- `schemaStore.put(schema)`: upsert by `name` (keyPath `name`). -/
def schemaPut (schemas : List Schema) (sc : Schema) : List Schema :=
  if schemas.any (fun x => x.name == sc.name) then
    schemas.map (fun x => if x.name == sc.name then sc else x)
  else schemas ++ [sc]

/-- `schemaStore.delete(name)`. -/
def schemaDelete (schemas : List Schema) (name : String) : List Schema :=
  schemas.filter (fun x => x.name != name)

/-- `recordStore.add(rec)` for a record that carries no `id`: the store's
key generator assigns the next integer key. -/
def addNewRecord (t : RecordTable) (schema : String) (data : List (String × Value))
    (createdAt : Nat) (createdTime createdBy lastEditedTime lastEditedBy : String) :
    RecordTable :=
  { recs := t.recs ++
      [{ id := t.nextId, schema := schema, data := data, createdAt := createdAt,
         createdTime := createdTime, createdBy := createdBy,
         lastEditedTime := lastEditedTime, lastEditedBy := lastEditedBy }],
    nextId := t.nextId + 1 }

/-- `recordStore.add(rec)` for a record that already carries an `id`
(the edit path re-puts the merged record): an IndexedDB `put` replaces
the value stored at that key, or stores a new entry if the key is
absent. -/
def putRecord (t : RecordTable) (r : Record) : RecordTable :=
  if t.recs.any (fun x => x.id == r.id) then
    { t with recs := t.recs.map (fun x => if x.id == r.id then r else x) }
  else { recs := t.recs ++ [r], nextId := max t.nextId (r.id + 1) }

/-- `recordStore.deleteBySchema(schema)`: cursor over all records,
deleting every record whose `schema` field equals the argument. -/
def deleteBySchema (t : RecordTable) (schema : String) : RecordTable :=
  { t with recs := t.recs.filter (fun r => r.schema != schema) }

/-- `recordStore.renameSchema(oldName, newName)`: cursor over all
records; every record whose `schema` equals `oldName` is updated in
place with `schema = newName`; every other record is left untouched. -/
def renameSchema (oldName newName : String) (t : RecordTable) : RecordTable :=
  { t with recs := t.recs.map (fun r =>
      if r.schema == oldName then { r with schema := newName } else r) }

/-! ### Schema UI module: save handler, delete flow, import -/

/-- The whole persisted state: the two object stores. -/
structure AppState where
  schemas : List Schema
  records : RecordTable
deriving DecidableEq, Repr

/-- One `.prop-row` of the schema modal, as read by the save handler:
the trimmed-later name input, the type select, the raw comma-separated
options input, the mandatory checkbox and the related-schema select. -/
structure PropRow where
  pname : String
  ptype : String
  poptions : String
  pmandatory : Bool
  prelatedschema : String
deriving DecidableEq, Repr

/-- The per-row mapping of the schema save handler: trims the property
name, splits options on commas, trims each and drops empties
(`filter(Boolean)`), and turns an empty related-schema selection into
`undefined`. -/
def rowToProperty (r : PropRow) : Property :=
  { name := jsTrim r.pname,
    type := r.ptype,
    options := ((jsSplitComma r.poptions).map jsTrim).filter (fun x => x != ""),
    isMandatory := r.pmandatory,
    relatedSchema := if r.prelatedschema == "" then none else some r.prelatedschema }

/-- Result of the `#btnSaveSchema` click handler: one constructor per
`alert`-and-return exit plus the success exit. -/
inductive SchemaSaveOutcome where
  | saved
  | errNameRequired
  | errNoProperties
  | errDuplicate
deriving DecidableEq, Repr

/-- The `#btnSaveSchema` click handler.  `editMode`/`editingSchemaName`
are the module-level variables set when the modal was opened (the name
is meaningful only when `editMode` is true).  Aborts: empty trimmed
name, zero properties after dropping rows with empty trimmed names, or
a duplicate name (in edit mode the schema being edited does not count
as a duplicate of itself).  On the edit path with a changed name it
renames the schema on every record, deletes the old schema entry, then
puts the new one; otherwise it just puts. -/
def btnSaveSchema (st : AppState) (editMode : Bool) (editingSchemaName : String)
    (rawName : String) (rows : List PropRow) : SchemaSaveOutcome × AppState :=
  let name := jsTrim rawName
  if name == "" then (.errNameRequired, st)
  else
    let properties := (rows.map rowToProperty).filter (fun p => p.name != "")
    if properties.isEmpty then (.errNoProperties, st)
    else if st.schemas.any (fun s => s.name == name && (!editMode || s.name != editingSchemaName)) then
      (.errDuplicate, st)
    else if editMode && name != editingSchemaName then
      (.saved,
        { schemas := schemaPut (schemaDelete st.schemas editingSchemaName)
            { name := name, properties := properties },
          records := renameSchema editingSchemaName name st.records })
    else
      (.saved, { st with schemas := schemaPut st.schemas { name := name, properties := properties } })

/-- `deleteSchemaFlow(schemaName)` after both confirmation prompts have
been answered: the schema entry is deleted, and when the user opted in
(`withRecords`) every record of that schema is deleted too. -/
def deleteSchemaFlow (st : AppState) (schemaName : String) (withRecords : Bool) : AppState :=
  { schemas := schemaDelete st.schemas schemaName,
    records := if withRecords then deleteBySchema st.records schemaName else st.records }

/-- `importSchemas` on an already parsed array: every entry with a
truthy `name` and an array `properties` field is put into the schema
store (in the typed embedding `properties` is always a list, so only
the name guard remains); no emptiness check on `properties` is made. -/
def importSchemas (schemas : List Schema) (list : List Schema) : List Schema :=
  list.foldl (fun acc sc => if sc.name != "" then schemaPut acc sc else acc) schemas

/-! ### Record save handler (records.js) -/

/-- The mandatory check of one property in the `#btnSaveRecord` handler:
`if (p.isMandatory) { const value = data[p.name];
 if (p.type !== 'Checkbox' && (!value || value.trim() === '')) push }`.
`.ok true` means the property name is pushed onto `missingFields`;
`.error` models the TypeError thrown when `.trim()` is called on a
non-string truthy value (a boolean `true`), which aborts the handler. -/
def missingCheckOne (data : List (String × Value)) (p : Property) : Except Unit Bool :=
  if p.isMandatory then
    if p.type == "Checkbox" then .ok false
    else
      match lookupData data p.name with
      | none => .ok true
      | some (.str s) => .ok (s == "" || jsTrim s == "")
      | some (.bool b) => if b then .error () else .ok true
  else .ok false

/-- The `missingFields` collection loop of the `#btnSaveRecord` handler,
over the active schema's properties in order. -/
def computeMissingFields (data : List (String × Value)) : List Property → Except Unit (List String)
  | [] => .ok []
  | p :: ps =>
    match missingCheckOne data p with
    | .error _ => .error ()
    | .ok true => (computeMissingFields data ps).map (fun ms => p.name :: ms)
    | .ok false => computeMissingFields data ps

/-- Result of `updateRecord(id, updatedFields)`. -/
inductive UpdateOutcome where
  | updated
  | notFound
deriving DecidableEq, Repr

/-- `updateRecord(id, { data, lastEditedTime, lastEditedBy: 'Admin' })`:
finds the record by strict id equality; alerts and performs no write
when absent; otherwise re-puts the spread `{ ...target, ...updatedFields }`,
which replaces `data`, `lastEditedTime` and `lastEditedBy` and keeps
every other field of the target. -/
def updateRecord (t : RecordTable) (id : Nat) (data : List (String × Value))
    (nowStr : String) : UpdateOutcome × RecordTable :=
  match t.recs.find? (fun r => r.id == id) with
  | none => (.notFound, t)
  | some target =>
    (.updated, putRecord t { target with
        data := data, lastEditedTime := nowStr, lastEditedBy := "Admin" })

/-- Result of the `#btnSaveRecord` click handler. -/
inductive SaveRecOutcome where
  | saved
  | validationAborted (missing : List String)
  | notFound
  | thrown
deriving DecidableEq, Repr

/-- The `#btnSaveRecord` click handler, after form collection has
produced `data`.  `now`/`nowStr` stand for `Date.now()` and its
locale rendering.  Mandatory validation runs first; when it reports
any missing field the handler alerts and returns with no store write.
Then `editMode && editingRecordId != null` selects the update path
(which may itself report not-found and write nothing); otherwise a new
record is added with fresh provenance. -/
def btnSaveRecord (activeSchema : Schema) (editMode : Bool) (editingRecordId : Option Nat)
    (data : List (String × Value)) (now : Nat) (nowStr : String) (t : RecordTable) :
    SaveRecOutcome × RecordTable :=
  match computeMissingFields data activeSchema.properties with
  | .error _ => (.thrown, t)
  | .ok missing =>
    if missing.isEmpty then
      match editMode, editingRecordId with
      | true, some id =>
        match updateRecord t id data nowStr with
        | (.updated, t2) => (.saved, t2)
        | (.notFound, t2) => (.notFound, t2)
      | _, _ =>
        (.saved, addNewRecord t activeSchema.name data now nowStr "Admin" nowStr "Admin")
    else (.validationAborted missing, t)

/-! ### Relation resolution (renderRecordTable and buildForm) -/

/-- JS loose equality `id == v` between a record's numeric id and a
stored data value, as used by the relation lookups.  For a string it is
`ToNumber(s) == id`; the strings compared here are the decimal-digit id
strings produced by the relation picker's `option.value = rec.id`, on
which `ToNumber` agrees with `decimalToNat?`.  For a boolean,
`ToNumber` gives `0` or `1`. -/
def looseEqIdVal (id : Nat) (v : Value) : Bool :=
  match v with
  | .str s => decimalToNat? s == some id
  | .bool b => (cond b 1 0 : Nat) == id

/-- The relation display label of a found target record:
`relatedRecord.data.Title || relatedRecord.data[Object.keys(...)[0]] ||
`Kayıt #${v}``, i.e. the `Title` value when truthy, else the first data
value when truthy, else the fallback label built from the stored
relation value `v`. -/
def titleFallback (target : Record) (v : Value) : String :=
  let fallback :=
    match target.data.head? with
    | some kv => if jsTruthy kv.2 then vToString kv.2 else "Kayıt #" ++ vToString v
    | none => "Kayıt #" ++ vToString v
  match lookupData target.data "Title" with
  | some tv => if jsTruthy tv then vToString tv else fallback
  | none => fallback

/-- One `"key: value"` cell fragment of `renderRecordTable`: when the
record's schema has a property of that name with type `Relation` and
the value is truthy, the value is resolved against all records by loose
id equality, yielding either the target's display label or the
`Silinmiş Kayıt (#id)` placeholder; in every other case the raw value
is interpolated. -/
def renderEntry (scm : Option Schema) (allRecords : List Record) (k : String) (v : Value) :
    String :=
  match scm.bind (fun s => s.properties.find? (fun q => q.name == k)) with
  | some p =>
    if p.type == "Relation" && jsTruthy v then
      match allRecords.find? (fun rec => looseEqIdVal rec.id v) with
      | some target => k ++ ": " ++ titleFallback target v
      | none => k ++ ": Silinmiş Kayıt (#" ++ vToString v ++ ")"
    else k ++ ": " ++ vToString v
  | none => k ++ ": " ++ vToString v

/-- The relation picker's pre-selection test in `buildForm`:
`existingData[p.name] == rec.id` — loose equality between the stored
value (if any) and the candidate option's record id; an absent value
(`undefined`) is loosely equal to no number. -/
def relationOptionPreselected (existing : Option Value) (recId : Nat) : Bool :=
  match existing with
  | some v => looseEqIdVal recId v
  | none => false

/-! ### Helper lemmas about the store operations -/

theorem mem_schemaPut_self (l : List Schema) (sc : Schema) : sc ∈ schemaPut l sc := by
  unfold schemaPut
  split
  case isTrue h =>
    obtain ⟨x, hx, hxe⟩ := List.any_eq_true.mp h
    exact List.mem_map.mpr ⟨x, hx, by simp [hxe]⟩
  case isFalse h => simp

theorem name_ne_of_mem_schemaPut {l : List Schema} {sc : Schema} {bad : String}
    (h1 : ∀ s ∈ l, s.name ≠ bad) (h2 : sc.name ≠ bad) :
    ∀ s ∈ schemaPut l sc, s.name ≠ bad := by
  intro s hs
  unfold schemaPut at hs
  split at hs
  · obtain ⟨x, hx, hxe⟩ := List.mem_map.mp hs
    by_cases hxc : x.name == sc.name
    · simp [hxc] at hxe; exact hxe ▸ h2
    · simp [hxc] at hxe; exact hxe ▸ h1 x hx
  · rcases List.mem_append.mp hs with h | h
    · exact h1 s h
    · simp at h; exact h ▸ h2

theorem name_ne_of_mem_schemaDelete (l : List Schema) (n : String) :
    ∀ s ∈ schemaDelete l n, s.name ≠ n := by
  intro s hs
  have := (List.mem_filter.mp hs).2
  simpa using this

theorem mem_of_mem_schemaDelete {l : List Schema} {n : String} :
    ∀ s ∈ schemaDelete l n, s ∈ l := by
  intro s hs
  exact (List.mem_filter.mp hs).1

/-- C9: `recordStore.renameSchema(oldName, newName)` leaves every record
whose `schema` differs from `oldName` completely unchanged, changes a
record whose `schema` equals `oldName` only in its `schema` field (id,
data, `createdAt` and all provenance fields preserved), and keeps the
number of records (and the key generator state) unchanged. -/
theorem renameSchema_frame (oldName newName : String) (t : RecordTable) :
    (renameSchema oldName newName t).nextId = t.nextId ∧
    (renameSchema oldName newName t).recs.length = t.recs.length ∧
    ∀ (i : Nat) (r r2 : Record),
      t.recs[i]? = some r → (renameSchema oldName newName t).recs[i]? = some r2 →
      r2.id = r.id ∧ r2.data = r.data ∧ r2.createdAt = r.createdAt ∧
      r2.createdTime = r.createdTime ∧ r2.createdBy = r.createdBy ∧
      r2.lastEditedTime = r.lastEditedTime ∧ r2.lastEditedBy = r.lastEditedBy ∧
      r2.schema = (if r.schema = oldName then newName else r.schema) ∧
      (r.schema ≠ oldName → r2 = r) := by
  refine ⟨rfl, by simp [renameSchema], ?_⟩
  intro i r r2 hr hr2
  unfold renameSchema at hr2
  simp only [List.getElem?_map, hr, Option.map_some] at hr2
  by_cases hsc : r.schema = oldName
  · simp [hsc] at hr2
    subst hr2
    simp [hsc]
  · simp [hsc] at hr2
    subst hr2
    simp [hsc]

/-- Witness for C9 at a concrete table. -/
theorem renameSchema_frame_witness :
    (renameSchema "A" "B" ⟨[⟨1, "A", [], 10, "c", "Admin", "e", "Admin"⟩,
        ⟨2, "Z", [], 11, "c2", "Admin", "e2", "Admin"⟩], 3⟩).nextId = 3 ∧
    (renameSchema "A" "B" ⟨[⟨1, "A", [], 10, "c", "Admin", "e", "Admin"⟩,
        ⟨2, "Z", [], 11, "c2", "Admin", "e2", "Admin"⟩], 3⟩).recs.length = 2 := by
  have h := renameSchema_frame "A" "B" ⟨[⟨1, "A", [], 10, "c", "Admin", "e", "Admin"⟩,
        ⟨2, "Z", [], 11, "c2", "Admin", "e2", "Admin"⟩], 3⟩
  exact ⟨h.1, h.2.1⟩

/-- C5: after `deleteSchemaFlow` with record cascade enabled, the
schema table contains no entry with the deleted name and no record of
that schema remains; with cascade disabled, the schema entry is gone
and the record table is entirely unchanged (so every record of that
schema remains as it was). -/
theorem cascade_delete_scope (st : AppState) (name : String) :
    (∀ s ∈ (deleteSchemaFlow st name true).schemas, s.name ≠ name) ∧
    (∀ r ∈ (deleteSchemaFlow st name true).records.recs, r.schema ≠ name) ∧
    (∀ s ∈ (deleteSchemaFlow st name false).schemas, s.name ≠ name) ∧
    (deleteSchemaFlow st name false).records = st.records := by
  refine ⟨?_, ?_, ?_, rfl⟩
  · exact name_ne_of_mem_schemaDelete st.schemas name
  · intro r hr
    have := (List.mem_filter.mp hr).2
    simpa using this
  · exact name_ne_of_mem_schemaDelete st.schemas name

/-- Witness for C5 at a concrete state: one schema `A` and one record of
schema `A`. -/
theorem cascade_delete_scope_witness :
    (∀ s ∈ (deleteSchemaFlow ⟨[⟨"A", []⟩], ⟨[⟨1, "A", [], 0, "", "", "", ""⟩], 2⟩⟩
        "A" true).schemas, s.name ≠ "A") ∧
    (∀ r ∈ (deleteSchemaFlow ⟨[⟨"A", []⟩], ⟨[⟨1, "A", [], 0, "", "", "", ""⟩], 2⟩⟩
        "A" true).records.recs, r.schema ≠ "A") ∧
    (∀ s ∈ (deleteSchemaFlow ⟨[⟨"A", []⟩], ⟨[⟨1, "A", [], 0, "", "", "", ""⟩], 2⟩⟩
        "A" false).schemas, s.name ≠ "A") ∧
    (deleteSchemaFlow ⟨[⟨"A", []⟩], ⟨[⟨1, "A", [], 0, "", "", "", ""⟩], 2⟩⟩
        "A" false).records = ⟨[⟨1, "A", [], 0, "", "", "", ""⟩], 2⟩ :=
  cascade_delete_scope ⟨[⟨"A", []⟩], ⟨[⟨1, "A", [], 0, "", "", "", ""⟩], 2⟩⟩ "A"

/-- C7: `updateRecord` on an id that is not present in the record table
reports not-found and writes nothing: the record table is returned
unchanged. -/
theorem update_notfound_no_write {t : RecordTable} {id : Nat}
    {data : List (String × Value)} {nowStr : String}
    (hfind : t.recs.find? (fun r => r.id == id) = none) :
    updateRecord t id data nowStr = (.notFound, t) := by
  unfold updateRecord
  rw [hfind]

/-- Witness for C7: updating id 9 in a table holding only id 1. -/
theorem update_notfound_no_write_witness :
    updateRecord ⟨[⟨1, "A", [], 0, "", "", "", ""⟩], 2⟩ 9 [] "now" =
      (.notFound, ⟨[⟨1, "A", [], 0, "", "", "", ""⟩], 2⟩) :=
  update_notfound_no_write (by decide)

/-- C6: a non-edit schema save whose trimmed name is already the name of
a stored schema exits through one of the `alert`-and-return branches
before any write: the outcome is not `saved`, the state is returned
unchanged, and the schema table still holds exactly one schema with
that name. -/
theorem duplicate_name_rejected {st : AppState} {e rawName : String} {rows : List PropRow}
    (hcount : st.schemas.countP (fun s => s.name == jsTrim rawName) = 1) :
    (btnSaveSchema st false e rawName rows).1 ≠ .saved ∧
    (btnSaveSchema st false e rawName rows).2 = st ∧
    (btnSaveSchema st false e rawName rows).2.schemas.countP
      (fun s => s.name == jsTrim rawName) = 1 := by
  have hpos : 0 < st.schemas.countP (fun s => s.name == jsTrim rawName) := by omega
  obtain ⟨x, hx, hpx⟩ := List.countP_pos_iff.mp hpos
  have hres : btnSaveSchema st false e rawName rows = (.errNameRequired, st) ∨
      btnSaveSchema st false e rawName rows = (.errNoProperties, st) ∨
      btnSaveSchema st false e rawName rows = (.errDuplicate, st) := by
    by_cases h1 : (jsTrim rawName == "") = true
    · left; simp only [btnSaveSchema]; rw [if_pos h1]
    · by_cases h2 :
        (List.filter (fun p => p.name != "") (List.map rowToProperty rows)).isEmpty = true
      · right; left; simp only [btnSaveSchema]; rw [if_neg h1, if_pos h2]
      · have hany : (st.schemas.any
            fun s => s.name == jsTrim rawName && (!false || s.name != e)) = true :=
          List.any_eq_true.mpr ⟨x, hx, by simp [hpx]⟩
        right; right; simp only [btnSaveSchema]; rw [if_neg h1, if_neg h2, if_pos hany]
  rcases hres with h | h | h <;> rw [h] <;> exact ⟨by simp, rfl, hcount⟩

/-- Witness for C6: saving a new schema named `A` while a schema `A`
already exists. -/
theorem duplicate_name_rejected_witness :
    (btnSaveSchema ⟨[⟨"A", []⟩], ⟨[], 1⟩⟩ false "" "A"
        [⟨"Title", "Title", "", false, ""⟩]).1 ≠ .saved ∧
    (btnSaveSchema ⟨[⟨"A", []⟩], ⟨[], 1⟩⟩ false "" "A"
        [⟨"Title", "Title", "", false, ""⟩]).2 = ⟨[⟨"A", []⟩], ⟨[], 1⟩⟩ ∧
    (btnSaveSchema ⟨[⟨"A", []⟩], ⟨[], 1⟩⟩ false "" "A"
        [⟨"Title", "Title", "", false, ""⟩]).2.schemas.countP
      (fun s => s.name == jsTrim "A") = 1 :=
  duplicate_name_rejected (by decide)

/-- C8: a schema save whose property rows, after dropping rows whose
trimmed name is empty, leave zero properties is rejected before any
write (whatever the mode), while `importSchemas` stores any entry with
a non-empty name — in particular one whose `properties` list is empty —
so the non-emptiness of `properties` is enforced only at the save edge. -/
theorem schema_save_requires_property {st : AppState} {m : Bool} {e rawName : String}
    {rows : List PropRow}
    (hempty : ((rows.map rowToProperty).filter (fun p => p.name != "")).isEmpty = true) :
    ((btnSaveSchema st m e rawName rows).1 ≠ .saved ∧
      (btnSaveSchema st m e rawName rows).2 = st) ∧
    (∀ (scs : List Schema) (sc : Schema), sc.name ≠ "" → sc ∈ importSchemas scs [sc]) := by
  constructor
  · have hres : btnSaveSchema st m e rawName rows = (.errNameRequired, st) ∨
        btnSaveSchema st m e rawName rows = (.errNoProperties, st) := by
      by_cases h1 : (jsTrim rawName == "") = true
      · left; simp only [btnSaveSchema]; rw [if_pos h1]
      · right; simp only [btnSaveSchema]; rw [if_neg h1, if_pos hempty]
    rcases hres with h | h <;> rw [h] <;> exact ⟨by simp, rfl⟩
  · intro scs sc hname
    unfold importSchemas
    simp only [List.foldl]
    rw [if_pos (by simpa using hname)]
    exact mem_schemaPut_self scs sc

/-- Witness for C8: a single property row whose name trims to empty, and
an imported schema with an empty property list. -/
theorem schema_save_requires_property_witness :
    ((btnSaveSchema ⟨[], ⟨[], 1⟩⟩ false "" "A" [⟨" ", "Text", "", false, ""⟩]).1 ≠ .saved ∧
      (btnSaveSchema ⟨[], ⟨[], 1⟩⟩ false "" "A" [⟨" ", "Text", "", false, ""⟩]).2 =
        ⟨[], ⟨[], 1⟩⟩) ∧
    (∀ (scs : List Schema) (sc : Schema), sc.name ≠ "" → sc ∈ importSchemas scs [sc]) :=
  schema_save_requires_property (by decide)

/-- C1: a successful schema save in edit mode whose new trimmed name
differs from the edited schema's name renames every record of the old
schema: afterwards no record's `schema` field equals the old name,
every record that referenced the old name (positionwise) now references
the new name, the schema table contains an entry named the new name,
and no entry named the old name. -/
theorem rename_cascade_complete {st st' : AppState} {oldName rawName : String}
    {rows : List PropRow}
    (hsave : btnSaveSchema st true oldName rawName rows = (.saved, st'))
    (hne : jsTrim rawName ≠ oldName) :
    (∀ r ∈ st'.records.recs, r.schema ≠ oldName) ∧
    (st'.records.recs.length = st.records.recs.length ∧
      ∀ (i : Nat) (r r2 : Record), st.records.recs[i]? = some r →
        st'.records.recs[i]? = some r2 → r.schema = oldName →
        r2.schema = jsTrim rawName) ∧
    (∃ s ∈ st'.schemas, s.name = jsTrim rawName) ∧
    (∀ s ∈ st'.schemas, s.name ≠ oldName) := by
  have hst' : st' = AppState.mk
      (schemaPut (schemaDelete st.schemas oldName)
        ⟨jsTrim rawName, (rows.map rowToProperty).filter (fun p => p.name != "")⟩)
      (renameSchema oldName (jsTrim rawName) st.records) := by
    by_cases h1 : (jsTrim rawName == "") = true
    · simp only [btnSaveSchema] at hsave; rw [if_pos h1] at hsave; simp at hsave
    · by_cases h2 :
        (List.filter (fun p => p.name != "") (List.map rowToProperty rows)).isEmpty = true
      · simp only [btnSaveSchema] at hsave; rw [if_neg h1, if_pos h2] at hsave
        simp at hsave
      · by_cases h3 : (st.schemas.any
            fun s => s.name == jsTrim rawName && (!true || s.name != oldName)) = true
        · simp only [btnSaveSchema] at hsave
          rw [if_neg h1, if_neg h2, if_pos h3] at hsave
          simp at hsave
        · have h4 : (true && jsTrim rawName != oldName) = true := by
            simp [bne_iff_ne, hne]
          simp only [btnSaveSchema] at hsave
          rw [if_neg h1, if_neg h2, if_neg h3, if_pos h4] at hsave
          simpa using hsave.symm
  subst hst'
  refine ⟨?_, ⟨by simp [renameSchema], ?_⟩, ?_, ?_⟩
  · intro r hr
    obtain ⟨r0, hr0, hmap⟩ := List.mem_map.mp hr
    by_cases hsc : (r0.schema == oldName) = true
    · rw [if_pos hsc] at hmap
      subst hmap
      exact hne
    · rw [if_neg hsc] at hmap
      subst hmap
      simpa using hsc
  · intro i r r2 hr hr2 hold
    unfold renameSchema at hr2
    simp only [List.getElem?_map, hr, Option.map_some] at hr2
    simp [hold] at hr2
    subst hr2
    rfl
  · exact ⟨_, mem_schemaPut_self _ _, rfl⟩
  · exact name_ne_of_mem_schemaPut (name_ne_of_mem_schemaDelete st.schemas oldName) hne

/-- Witness for C1: renaming schema `A` to `B` with one record of `A`
and one of `Z` in the table. -/
theorem rename_cascade_complete_witness :
    (∀ r ∈ ((btnSaveSchema
        ⟨[⟨"A", [⟨"Title", "Title", [], true, none⟩]⟩],
          ⟨[⟨1, "A", [], 10, "c", "Admin", "e", "Admin"⟩,
            ⟨2, "Z", [], 11, "c", "Admin", "e", "Admin"⟩], 3⟩⟩
        true "A" "B" [⟨"Title", "Title", "", true, ""⟩]).2).records.recs,
      r.schema ≠ "A") ∧
    (∃ s ∈ ((btnSaveSchema
        ⟨[⟨"A", [⟨"Title", "Title", [], true, none⟩]⟩],
          ⟨[⟨1, "A", [], 10, "c", "Admin", "e", "Admin"⟩,
            ⟨2, "Z", [], 11, "c", "Admin", "e", "Admin"⟩], 3⟩⟩
        true "A" "B" [⟨"Title", "Title", "", true, ""⟩]).2).schemas,
      s.name = jsTrim "B") :=
  have h := @rename_cascade_complete
    ⟨[⟨"A", [⟨"Title", "Title", [], true, none⟩]⟩],
      ⟨[⟨1, "A", [], 10, "c", "Admin", "e", "Admin"⟩,
        ⟨2, "Z", [], 11, "c", "Admin", "e", "Admin"⟩], 3⟩⟩
    ((btnSaveSchema
        ⟨[⟨"A", [⟨"Title", "Title", [], true, none⟩]⟩],
          ⟨[⟨1, "A", [], 10, "c", "Admin", "e", "Admin"⟩,
            ⟨2, "Z", [], 11, "c", "Admin", "e", "Admin"⟩], 3⟩⟩
        true "A" "B" [⟨"Title", "Title", "", true, ""⟩]).2)
    "A" "B" [⟨"Title", "Title", "", true, ""⟩]
    (by decide) (by decide)
  ⟨h.1, h.2.2.1⟩

theorem missingCheckOne_empty {data : List (String × Value)} {p : Property}
    (hm : p.isMandatory = true) (ht : p.type ≠ "Checkbox")
    (hv : lookupData data p.name = none ∨
      ∃ s, lookupData data p.name = some (.str s) ∧ jsTrim s = "") :
    missingCheckOne data p = .ok true := by
  unfold missingCheckOne
  rw [if_pos hm, if_neg (by simpa using ht)]
  rcases hv with h | ⟨s, h, hs⟩
  · rw [h]
  · rw [h]
    simp [hs]

theorem mem_computeMissingFields {data : List (String × Value)} {p : Property}
    {props : List Property} {ms : List String}
    (hp : p ∈ props) (hone : missingCheckOne data p = .ok true)
    (hok : computeMissingFields data props = .ok ms) :
    p.name ∈ ms := by
  induction props generalizing ms with
  | nil => cases hp
  | cons q qs ih =>
    unfold computeMissingFields at hok
    rcases List.mem_cons.mp hp with heq | hp2
    · subst heq
      rw [hone] at hok
      cases hq : computeMissingFields data qs with
      | error e => rw [hq] at hok; simp [Except.map] at hok
      | ok ms2 =>
        rw [hq] at hok
        simp only [Except.map] at hok
        cases hok
        exact List.mem_cons_self _ _
    · cases hone2 : missingCheckOne data q with
      | error e => rw [hone2] at hok; cases hok
      | ok b =>
        rw [hone2] at hok
        cases b with
        | true =>
          cases hq : computeMissingFields data qs with
          | error e => rw [hq] at hok; simp [Except.map] at hok
          | ok ms2 =>
            rw [hq] at hok
            simp only [Except.map] at hok
            cases hok
            exact List.mem_cons_of_mem _ (ih hp2 hq)
        | false => exact ih hp2 hok

/-- C2: a mandatory non-Checkbox property whose collected value is
absent or trims to the empty string makes the record save abort: the
property's name is reported in the missing-field list and the record
table is returned unchanged — on the create path and on the edit path
alike (the validation runs before the mode split).  The
`computeMissingFields … = .ok ms` hypothesis states that the validation
loop runs to completion, i.e. no other mandatory property holds the
non-string value that would make JS `value.trim()` throw. -/
theorem mandatory_validation {sc : Schema} {p : Property} {data : List (String × Value)}
    {ms : List String}
    (hp : p ∈ sc.properties) (hm : p.isMandatory = true) (ht : p.type ≠ "Checkbox")
    (hv : lookupData data p.name = none ∨
      ∃ s, lookupData data p.name = some (.str s) ∧ jsTrim s = "")
    (hok : computeMissingFields data sc.properties = .ok ms) :
    p.name ∈ ms ∧ ms ≠ [] ∧
    ∀ (editMode : Bool) (eid : Option Nat) (now : Nat) (nowStr : String) (t : RecordTable),
      btnSaveRecord sc editMode eid data now nowStr t = (.validationAborted ms, t) := by
  have hone := missingCheckOne_empty hm ht hv
  have hmem := mem_computeMissingFields hp hone hok
  have hne : ms ≠ [] := by
    intro h
    subst h
    cases hmem
  refine ⟨hmem, hne, ?_⟩
  intro em eid now nowStr t
  unfold btnSaveRecord
  rw [hok]
  simp [List.isEmpty_iff, hne]

/-- Witness for C2: a schema with one mandatory `Title` property and a
submission whose `Title` collects `"  "`. -/
theorem mandatory_validation_witness :
    "Title" ∈ ["Title"] ∧ (["Title"] : List String) ≠ [] ∧
    ∀ (editMode : Bool) (eid : Option Nat) (now : Nat) (nowStr : String) (t : RecordTable),
      btnSaveRecord ⟨"Task", [⟨"Title", "Title", [], true, none⟩]⟩ editMode eid
        [("Title", .str "  ")] now nowStr t = (.validationAborted ["Title"], t) :=
  @mandatory_validation ⟨"Task", [⟨"Title", "Title", [], true, none⟩]⟩
    ⟨"Title", "Title", [], true, none⟩ [("Title", .str "  ")] ["Title"]
    (List.mem_singleton.mpr rfl) rfl (by decide)
    (Or.inr ⟨"  ", by decide, by decide⟩) (by rfl)

/-- C4: the edit-save path applied to an existing record (validation
passing) re-puts exactly one record under the same id: its `data` map
is wholly replaced by the newly collected map (a key absent from the
submission is absent afterwards), `lastEditedTime`/`lastEditedBy` are
refreshed, and `schema`, `createdAt`, `createdTime` and `createdBy` are
those of the original record; every other record is untouched and the
table's size is unchanged. -/
theorem edit_save_full_replace {sc : Schema} {id : Nat} {data : List (String × Value)}
    {now : Nat} {nowStr : String} {t : RecordTable} {target : Record}
    (hok : computeMissingFields data sc.properties = .ok [])
    (hfind : t.recs.find? (fun r => r.id == id) = some target) :
    ∃ t2, btnSaveRecord sc true (some id) data now nowStr t = (.saved, t2) ∧
      t2.recs.length = t.recs.length ∧
      (∃ r2 ∈ t2.recs, r2.id = id) ∧
      (∀ r2 ∈ t2.recs, r2.id = id →
        r2.data = data ∧
        (∀ key, lookupData data key = none → lookupData r2.data key = none) ∧
        r2.lastEditedTime = nowStr ∧ r2.lastEditedBy = "Admin" ∧
        r2.createdAt = target.createdAt ∧ r2.createdTime = target.createdTime ∧
        r2.createdBy = target.createdBy ∧ r2.schema = target.schema) ∧
      (∀ r2 ∈ t2.recs, r2.id ≠ id → r2 ∈ t.recs) := by
  have htid := List.find?_some hfind
  have htid' : target.id = id := by simpa using htid
  have htmem : target ∈ t.recs := List.mem_of_find?_eq_some hfind
  have hupd : updateRecord t id data nowStr =
      (.updated, putRecord t { target with
        data := data, lastEditedTime := nowStr, lastEditedBy := "Admin" }) := by
    unfold updateRecord
    rw [hfind]
  have hstep : btnSaveRecord sc true (some id) data now nowStr t =
      (.saved, putRecord t { target with
        data := data, lastEditedTime := nowStr, lastEditedBy := "Admin" }) := by
    unfold btnSaveRecord
    rw [hok]
    simp [hupd]
  have hany : (t.recs.any fun x => x.id == ({ target with
      data := data, lastEditedTime := nowStr, lastEditedBy := "Admin" } : Record).id) = true :=
    List.any_eq_true.mpr ⟨target, htmem, by simp⟩
  rw [hstep]
  unfold putRecord
  rw [if_pos hany]
  refine ⟨_, rfl, by simp, ?_, ?_, ?_⟩
  · refine ⟨{ target with data := data, lastEditedTime := nowStr, lastEditedBy := "Admin" },
      List.mem_map.mpr ⟨target, htmem, ?_⟩, htid'⟩
    rw [if_pos (by simp)]
  · intro r2 hr2 hid2
    obtain ⟨r0, hr0, hmap⟩ := List.mem_map.mp hr2
    by_cases hc : (r0.id == ({ target with
        data := data, lastEditedTime := nowStr, lastEditedBy := "Admin" } : Record).id) = true
    · rw [if_pos hc] at hmap
      subst hmap
      exact ⟨rfl, fun key h => h, rfl, rfl, rfl, rfl, rfl, rfl⟩
    · rw [if_neg hc] at hmap
      subst hmap
      exact absurd (by simp [hid2, htid']) hc
  · intro r2 hr2 hid2
    obtain ⟨r0, hr0, hmap⟩ := List.mem_map.mp hr2
    by_cases hc : (r0.id == ({ target with
        data := data, lastEditedTime := nowStr, lastEditedBy := "Admin" } : Record).id) = true
    · rw [if_pos hc] at hmap
      subst hmap
      exact absurd htid' hid2
    · rw [if_neg hc] at hmap
      subst hmap
      exact hr0

/-- Witness for C4: editing record 1, replacing a two-key `data` map by
a one-key map. -/
theorem edit_save_full_replace_witness :
    ∃ t2, btnSaveRecord ⟨"Task", [⟨"Title", "Title", [], false, none⟩]⟩ true (some 1)
        [("Title", .str "new")] 99 "later"
        ⟨[⟨1, "Task", [("Title", .str "old"), ("Gone", .str "x")], 10, "c", "Admin",
          "e", "Admin"⟩], 2⟩ = (.saved, t2) ∧
      t2.recs.length = 1 ∧
      (∃ r2 ∈ t2.recs, r2.id = 1) ∧
      (∀ r2 ∈ t2.recs, r2.id = 1 →
        r2.data = [("Title", .str "new")] ∧
        (∀ key, lookupData [("Title", .str "new")] key = none →
          lookupData r2.data key = none) ∧
        r2.lastEditedTime = "later" ∧ r2.lastEditedBy = "Admin" ∧
        r2.createdAt = 10 ∧ r2.createdTime = "c" ∧ r2.createdBy = "Admin" ∧
        r2.schema = "Task") ∧
      (∀ r2 ∈ t2.recs, r2.id ≠ 1 →
        r2 ∈ [⟨1, "Task", [("Title", .str "old"), ("Gone", .str "x")], 10, "c", "Admin",
          "e", "Admin"⟩]) :=
  @edit_save_full_replace ⟨"Task", [⟨"Title", "Title", [], false, none⟩]⟩ 1
    [("Title", .str "new")] 99 "later"
    ⟨[⟨1, "Task", [("Title", .str "old"), ("Gone", .str "x")], 10, "c", "Admin",
      "e", "Admin"⟩], 2⟩
    ⟨1, "Task", [("Title", .str "old"), ("Gone", .str "x")], 10, "c", "Admin",
      "e", "Admin"⟩
    (by rfl) (by rfl)

/-- C3: rendering a Relation-typed entry with a truthy stored value:
when the lookup over all records (by loose id equality) finds a target,
the label is the target's `Title` value when truthy, else its first
data value when truthy, else the `Kayıt #<id>` fallback carrying the
stored id value; when no record matches, the result is the
deterministic `Silinmiş Kayıt (#<id>)` placeholder containing the
stored id value — in every case a plain string, never an exception. -/
theorem relation_resolution {scm : Schema} {p : Property} {k : String} {v : Value}
    {allRecords : List Record}
    (hprop : scm.properties.find? (fun q => q.name == k) = some p)
    (hty : p.type = "Relation") (htr : jsTruthy v = true) :
    (∀ target : Record, allRecords.find? (fun rec => looseEqIdVal rec.id v) = some target →
      looseEqIdVal target.id v = true ∧
      renderEntry (some scm) allRecords k v = k ++ ": " ++ titleFallback target v ∧
      (∀ tv, lookupData target.data "Title" = some tv → jsTruthy tv = true →
        renderEntry (some scm) allRecords k v = k ++ ": " ++ vToString tv) ∧
      ((∀ tv, lookupData target.data "Title" = some tv → jsTruthy tv = false) →
        ∀ kv : String × Value, target.data.head? = some kv → jsTruthy kv.2 = true →
          renderEntry (some scm) allRecords k v = k ++ ": " ++ vToString kv.2) ∧
      ((∀ tv, lookupData target.data "Title" = some tv → jsTruthy tv = false) →
        (∀ kv : String × Value, target.data.head? = some kv → jsTruthy kv.2 = false) →
        renderEntry (some scm) allRecords k v =
          k ++ ": " ++ ("Kayıt #" ++ vToString v))) ∧
    (allRecords.find? (fun rec => looseEqIdVal rec.id v) = none →
      renderEntry (some scm) allRecords k v =
        k ++ ": Silinmiş Kayıt (#" ++ vToString v ++ ")" ∧
      ∃ a b, renderEntry (some scm) allRecords k v = a ++ (vToString v ++ b)) := by
  have hcond : (p.type == "Relation" && jsTruthy v) = true := by simp [hty, htr]
  have hre : renderEntry (some scm) allRecords k v =
      (match allRecords.find? (fun rec => looseEqIdVal rec.id v) with
       | some target => k ++ ": " ++ titleFallback target v
       | none => k ++ ": Silinmiş Kayıt (#" ++ vToString v ++ ")") := by
    unfold renderEntry
    simp [hprop, hcond]
  constructor
  · intro target hfind
    have hre2 : renderEntry (some scm) allRecords k v =
        k ++ ": " ++ titleFallback target v := by
      rw [hre, hfind]
    have htv := List.find?_some hfind
    refine ⟨htv, hre2, ?_, ?_, ?_⟩
    · intro tv hlt htvt
      rw [hre2]
      unfold titleFallback
      simp [hlt, htvt]
    · intro hfls kv hhead hkvt
      rw [hre2]
      unfold titleFallback
      cases hlt : lookupData target.data "Title" with
      | none => simp [hlt, hhead, hkvt]
      | some tv => simp [hlt, hhead, hfls tv hlt, hkvt]
    · intro hfls hfls2
      rw [hre2]
      unfold titleFallback
      cases hlt : lookupData target.data "Title" with
      | none =>
        cases hhead : target.data.head? with
        | none => simp [hlt, hhead]
        | some kv => simp [hlt, hhead, hfls2 kv hhead]
      | some tv =>
        cases hhead : target.data.head? with
        | none => simp [hlt, hhead, hfls tv hlt]
        | some kv => simp [hlt, hhead, hfls tv hlt, hfls2 kv hhead]
  · intro hnone
    have hre3 : renderEntry (some scm) allRecords k v =
        k ++ ": Silinmiş Kayıt (#" ++ vToString v ++ ")" := by
      rw [hre, hnone]
    refine ⟨hre3, k ++ ": Silinmiş Kayıt (#", ")", ?_⟩
    rw [hre3, String.append_assoc]

/-- Witness for C3: a relation entry resolving to a record whose `Title`
is `"hello"`, and a dangling relation entry. -/
theorem relation_resolution_witness :
    (looseEqIdVal 1 (.str "1") = true ∧
      renderEntry (some ⟨"P", [⟨"Task", "Relation", [], false, some "A"⟩]⟩)
        [⟨1, "A", [("Title", .str "hello")], 0, "", "", "", ""⟩] "Task" (.str "1") =
        "Task" ++ ": " ++ vToString (.str "hello")) ∧
    renderEntry (some ⟨"P", [⟨"Task", "Relation", [], false, some "A"⟩]⟩)
        [⟨1, "A", [("Title", .str "hello")], 0, "", "", "", ""⟩] "Task" (.str "7") =
      "Task" ++ ": Silinmiş Kayıt (#" ++ vToString (.str "7") ++ ")" :=
  have h1 := @relation_resolution ⟨"P", [⟨"Task", "Relation", [], false, some "A"⟩]⟩
    ⟨"Task", "Relation", [], false, some "A"⟩ "Task" (.str "1")
    [⟨1, "A", [("Title", .str "hello")], 0, "", "", "", ""⟩]
    (by rfl) rfl (by decide)
  have h2 := @relation_resolution ⟨"P", [⟨"Task", "Relation", [], false, some "A"⟩]⟩
    ⟨"Task", "Relation", [], false, some "A"⟩ "Task" (.str "7")
    [⟨1, "A", [("Title", .str "hello")], 0, "", "", "", ""⟩]
    (by rfl) rfl (by decide)
  have ha := h1.1 ⟨1, "A", [("Title", .str "hello")], 0, "", "", "", ""⟩ (by rfl)
  have hb := h2.2 (by rfl)
  ⟨⟨ha.1, ha.2.2.1 (.str "hello") (by rfl) (by decide)⟩, hb.1⟩

/-- C10: relation-id matching is type-coercing.  A Relation value
stored as the decimal string form of an integer id compares loosely
equal to that numeric id, so the edit form's option pre-selection test
(`existingData[p.name] == rec.id`) selects the record with that numeric
id, and the table renderer's label resolution (`rec.id == v`) resolves
the stored string to that record's label rather than to the
deleted-record placeholder. -/
theorem relation_loose_matching {n : Nat} {s : String}
    (hs : decimalToNat? s = some n) :
    looseEqIdVal n (.str s) = true ∧
    relationOptionPreselected (some (.str s)) n = true ∧
    ∀ (scm : Schema) (p : Property) (k : String) (target : Record),
      scm.properties.find? (fun q => q.name == k) = some p →
      p.type = "Relation" → s ≠ "" → target.id = n →
      renderEntry (some scm) [target] k (.str s) =
        k ++ ": " ++ titleFallback target (.str s) := by
  have hle : looseEqIdVal n (.str s) = true := by
    unfold looseEqIdVal
    simp [hs]
  refine ⟨hle, ?_, ?_⟩
  · unfold relationOptionPreselected
    exact hle
  · intro scm p k target hprop hty hne htid
    have htr : jsTruthy (.str s) = true := by simp [jsTruthy, hne]
    have hcond : (p.type == "Relation" && jsTruthy (Value.str s)) = true := by
      simp [hty, htr]
    have hptrue : looseEqIdVal target.id (.str s) = true := by
      rw [htid]
      exact hle
    have hfind : [target].find? (fun rec => looseEqIdVal rec.id (.str s)) = some target :=
      List.find?_cons_of_pos _ hptrue
    unfold renderEntry
    simp [hprop, hcond, hfind]

/-- Witness for C10: the string `"5"` matches the numeric id `5` in
both the pre-selection test and the renderer lookup. -/
theorem relation_loose_matching_witness :
    looseEqIdVal 5 (.str "5") = true ∧
    relationOptionPreselected (some (.str "5")) 5 = true ∧
    ∀ (scm : Schema) (p : Property) (k : String) (target : Record),
      scm.properties.find? (fun q => q.name == k) = some p →
      p.type = "Relation" → "5" ≠ "" → target.id = 5 →
      renderEntry (some scm) [target] k (.str "5") =
        k ++ ": " ++ titleFallback target (.str "5") :=
  @relation_loose_matching 5 "5" (by decide)

end NoteFlix
